import Mathlib

/-!
Verification of the documentation-site assembly pipeline (`src/doc.rs`).

The file embeds the Rust module `doc.rs` shallowly in Lean.  Collaborating
modules of the same repository that are not part of the provided sources
(`pretty.rs`, `format.rs`, `ast.rs`, `project.rs`, `error.rs`, the askama
template engine binding and the `pulldown_cmark` markdown engine) are
modelled from the specification, as indicated by each definition's doc
comment.  External engines (markdown, page templates) are passed in as
function parameters, so theorems hold for every behaviour of those engines.
-/

namespace GleamDoc

/-- Modelled from the spec: a type-expression tree (the `ast::TypeAst` of the
repository, not under `src/`).  The aliased type of a type alias. -/
inductive TypeAst where
  | var (name : String)
  | constructor (name : String) (args : List TypeAst)
  | tuple (elems : List TypeAst)

/-- Modelled from the spec: the typed top-level statements of `ast.rs` (not
under `src/`), with exactly the fields `doc.rs` pattern-matches on; a
visibility flag, a name, an optional doc comment, and for type-level
declarations a type-parameter list.  `importStmt` stands for the statement
kinds that are neither functions nor type declarations. -/
inductive Statement where
  | fn (pub : Bool) (name : String) (doc : Option String)
  | externalFn (pub : Bool) (name : String) (doc : Option String)
  | externalType (pub : Bool) (name : String) (doc : Option String) (args : List String)
  | customType (pub : Bool) (name : String) (doc : Option String)
  | typeAlias (pub : Bool) (aliasName : String) (doc : Option String) (args : List String)
      (resolved_type : TypeAst)
  | importStmt (module : List String)

/-- Modelled from the spec: the module origin tag of `project.rs` (not under
`src/`): from-source or from-dependency. -/
inductive ModuleOrigin where
  | src
  | dependency
deriving DecidableEq, BEq

/-- Modelled from the spec: the typed module AST carried by `Analysed.ast`;
only its statement list is read by `doc.rs`. -/
structure Module where
  statements : List Statement

/-- Modelled from the spec: the analysed module artifact of `project.rs` (not
under `src/`): a segmented name, an origin tag and the typed AST. -/
structure Analysed where
  name : List String
  origin : ModuleOrigin
  ast : Module

/-- Modelled from the spec: `project::OutputFile`.  A `PathBuf` is modelled as
its list of path segments. -/
structure OutputFile where
  path : List String
  text : String
deriving DecidableEq

/-- Modelled from the spec: `project::ProjectConfig`; only the project name is
read by `doc.rs`. -/
structure ProjectConfig where
  name : String

/-- Translated from `doc.rs`: the `Link` record. -/
structure Link where
  name : String
  path : String
deriving DecidableEq

/-- Translated from `doc.rs`: the `Function` record (a rendered function
declaration). -/
structure Function where
  name : String
  signature : String
  documentation : String
deriving DecidableEq

/-- Translated from `doc.rs`: the `Type` record (a rendered type
declaration). -/
structure Type' where
  name : String
  definition : String
  documentation : String
deriving DecidableEq

/-- Translated from `doc.rs`: the `PageTemplate` askama context. -/
structure PageTemplate where
  unnest : String
  page_title : String
  project_name : String
  project_version : String
  pages : List Link
  links : List Link
  modules : List Link
  content : String

/-- Translated from `doc.rs`: the `ModuleTemplate` askama context. -/
structure ModuleTemplate where
  unnest : String
  page_title : String
  module_name : String
  project_name : String
  project_version : String
  pages : List Link
  links : List Link
  modules : List Link
  functions : List Function
  types : List Type'
  documentation : String

/-! The document-layout engine, modelled from the spec (`pretty.rs` is not
under `src/`).  Section 6 of the spec gives its interface (`to_doc`, `nil`,
`line`, `group`, `nest`, `append`, `format`) and section 4.2 its fitting
algorithm: a group is rendered flat when its flat rendering fits within the
width measured from the current column, and in break mode otherwise, where a
break becomes a newline followed by the current nesting's indentation. -/

/-- Modelled from the spec: the layout tree of the document-layout engine.
A `brk` renders as `unbroken` in flat mode and as `broken` followed by a
newline plus indentation in break mode; `line` from the interface is the
breakable space `brk "" " "`. -/
inductive Document where
  | nil
  | text (s : String)
  | brk (broken : String) (unbroken : String)
  | nest (j : Nat) (d : Document)
  | group (d : Document)
  | cons (a b : Document)
deriving Repr

/-- Modelled from the spec: `line()`, a breakable space. -/
def line : Document := Document.brk "" " "

/-- Modelled from the spec: `to_doc` on a string literal. -/
def to_doc (s : String) : Document := Document.text s

/-- Width of the flat (one-line) rendering of a document. -/
def flatWidth : Document → Nat
  | Document.nil => 0
  | Document.text s => s.length
  | Document.brk _ u => u.length
  | Document.nest _ d => flatWidth d
  | Document.group d => flatWidth d
  | Document.cons a b => flatWidth a + flatWidth b

/-- A run of `n` spaces. -/
def spaces (n : Nat) : String := String.mk (List.replicate n ' ')

/-- Rendering mode of the layout engine: flat (everything on the current
line) or broken (each break becomes a newline). -/
inductive Mode where
  | flat
  | broken
deriving Repr, DecidableEq

/-- Modelled from the spec: the fitting algorithm of `pretty::format`.
Arguments: width, current column, current indentation, mode, document.
Returns the rendered text together with the column reached.  A group is
rendered flat exactly when its flat width fits between the current column
and the width limit. -/
def fmt (w : Int) : Nat → Nat → Mode → Document → String × Nat
  | k, _, _, Document.nil => ("", k)
  | k, _, _, Document.text s => (s, k + s.length)
  | k, i, mo, Document.brk b u =>
    match mo with
    | Mode.flat => (u, k + u.length)
    | Mode.broken => (b ++ "\n" ++ spaces i, i)
  | k, i, mo, Document.nest j d => fmt w k (i + j) mo d
  | k, i, _, Document.group d =>
    if (flatWidth d : Int) ≤ w - k then fmt w k i Mode.flat d else fmt w k i Mode.broken d
  | k, i, mo, Document.cons a b =>
    let r := fmt w k i mo a
    let r2 := fmt w r.2 i mo b
    (r.1 ++ r2.1, r2.2)

/-- Modelled from the spec: `pretty::format(width, doc)` renders a document
starting at column 0. -/
def format (w : Int) (d : Document) : String := (fmt w 0 0 Mode.broken d).1

/-- Translated from `doc.rs`: `const MAX_COLUMNS: isize = 65`. -/
def MAX_COLUMNS : Int := 65

/-- Translated from `doc.rs` / modelled from the spec: `format::INDENT`, the
indent unit, fixed at 2 columns. -/
def INDENT : Nat := 2

/-- Documents interspersed with a separator document (the `itertools`
`intersperse` used by `format::wrap_args`). -/
def intersperseDoc (sep : Document) : List Document → Document
  | [] => Document.nil
  | [d] => d
  | d :: rest => Document.cons d (Document.cons sep (intersperseDoc sep rest))

/-- Modelled from the spec: `format::wrap_args` (not under `src/`) wraps a
parameter list in a group: an opening parenthesis, the parameters separated
by comma-breaks, a trailing comma-break and the closing parenthesis; the
parameters are nested `INDENT` columns beyond the group's start, the closing
parenthesis is not.  Flat the group renders as a parenthesized
comma-separated list; broken it renders one parameter per line. -/
def wrap_args (args : List Document) : Document :=
  Document.group
    (Document.cons
      (Document.nest INDENT
        (Document.cons (Document.brk "(" "(") (intersperseDoc (Document.brk "," ", ") args)))
      (Document.cons (Document.brk "," "") (Document.text ")")))

/-- Strings joined with a separator between consecutive elements:
`join` of `intersperse`, as used for `m.name.join` and the unnest
computation in `doc.rs`. -/
def sepBy (sep : String) : List String → String
  | [] => ""
  | [a] => a
  | a :: rest => a ++ sep ++ sepBy sep rest

mutual

/-- Flat source-like text of a type expression. -/
def typeAstText : TypeAst → String
  | TypeAst.var n => n
  | TypeAst.constructor n args =>
    if args.isEmpty then n else n ++ "(" ++ sepBy ", " (typeAstTexts args) ++ ")"
  | TypeAst.tuple elems => "#(" ++ sepBy ", " (typeAstTexts elems) ++ ")"

/-- Flat source-like texts of a list of type expressions. -/
def typeAstTexts : List TypeAst → List String
  | [] => []
  | t :: rest => typeAstText t :: typeAstTexts rest

end

/-- Modelled from the spec: `format::type_ast` (not under `src/`) renders the
aliased type expression; its internal layout is out of the spec's scope, so
it is modelled as the flat source-like text of the type. -/
def type_ast (t : TypeAst) : Document := Document.text (typeAstText t)

/-- Translated from `doc.rs`: `external_type`, the signature renderer for
public external types. -/
def external_type (name : String) (args : List String) : String :=
  format MAX_COLUMNS
    (Document.cons (to_doc "pub external type ")
      (Document.cons (Document.text name)
        (if args.isEmpty then Document.nil else wrap_args (args.map Document.text))))

/-- Translated from `doc.rs`: `type_alias`, the signature renderer for public
type aliases. -/
def type_alias (name : String) (args : List String) (typ : TypeAst) : String :=
  format MAX_COLUMNS
    (Document.cons (to_doc "pub type ")
      (Document.cons (Document.text name)
        (Document.cons
          (if args.isEmpty then Document.nil else wrap_args (args.map Document.text))
          (Document.cons (Document.text " =")
            (Document.nest INDENT (Document.group (Document.cons line (type_ast typ))))))))

/-- Translated from `doc.rs`: `render_markdown` delegates to the external
markdown engine, passed here as the parameter `md`. -/
def render_markdown (md : String → String) (text : String) : String := md text

/-- Translated from `doc.rs`: the `function` classifier; yields a rendered
`Function` for public in-language and external functions, nothing
otherwise. -/
def function (md : String → String) (statement : Statement) : Option Function :=
  match statement with
  | Statement.externalFn true name doc =>
    some
      { name := name
        signature := ""
        documentation :=
          match doc with
          | none => ""
          | some d => render_markdown md d }
  | Statement.fn true name doc =>
    some
      { name := name
        signature := ""
        documentation :=
          match doc with
          | none => ""
          | some d => render_markdown md d }
  | _ => none

/-- Translated from `doc.rs`: the `type_` classifier; yields a rendered
`Type'` for public external types, custom types and type aliases, nothing
otherwise. -/
def type_ (md : String → String) (statement : Statement) : Option Type' :=
  match statement with
  | Statement.externalType true name doc args =>
    some
      { name := name
        definition := external_type name args
        documentation :=
          match doc with
          | none => ""
          | some d => render_markdown md d }
  | Statement.customType true name doc =>
    some
      { name := name
        definition := ""
        documentation :=
          match doc with
          | none => ""
          | some d => render_markdown md d }
  | Statement.typeAlias true name doc args typ =>
    some
      { name := name
        definition := type_alias name args typ
        documentation :=
          match doc with
          | none => ""
          | some d => render_markdown md d }
  | _ => none

/-- Translated from `doc.rs` line 56: the unnest prefix of a module page,
one dot-dot per name segment, interspersed with slashes. -/
def unnest (name : List String) : String := sepBy "/" (name.map fun _ => "..")

/-- Translated from `doc.rs`: the from-source modules selected by
`generate_html`. -/
def srcModules (analysed : List Analysed) : List Analysed :=
  analysed.filter fun m => m.origin == ModuleOrigin.src

/-- Translated from `doc.rs`: the modules link list built once per run. -/
def modules_links (analysed : List Analysed) : List Link :=
  (srcModules analysed).map fun m => { name := sepBy "/" m.name, path := sepBy "/" m.name }

/-- Translated from `doc.rs`: the fixed pages link list (the README entry). -/
def pagesLinks : List Link := [{ name := "README", path := "" }]

/-- Translated from `doc.rs`: the README `PageTemplate` value. -/
def readmeTemplate (cfg : ProjectConfig) (ls : List Link) : PageTemplate :=
  { unnest := "."
    links := []
    pages := pagesLinks
    modules := ls
    content := ""
    project_name := cfg.name
    page_title := cfg.name
    project_version := "" }

/-- Translated from `doc.rs`: the `ModuleTemplate` value built for one
from-source module. -/
def moduleTemplate (md : String → String) (cfg : ProjectConfig) (ls : List Link)
    (m : Analysed) : ModuleTemplate :=
  { unnest := unnest m.name
    links := []
    pages := pagesLinks
    module_name := sepBy "/" m.name
    documentation := ""
    modules := ls
    project_name := cfg.name
    page_title := cfg.name
    project_version := ""
    functions := m.ast.statements.filterMap (function md)
    types := m.ast.statements.filterMap (type_ md) }

/-- Modelled from the spec: the fixed stylesheet asset
(`templates/index.css`, not under `src/`). -/
def stylesheet : String := "/* gleam documentation stylesheet */"

/-- Translated from `doc.rs`: the module-page loop of `generate_html`; for
each module render its page through the external template engine `rm` and
push the output file; a rendering failure aborts (modelled from the spec:
`gleam_expect`, `error.rs` not under `src/`, is fatal and produces no
output files). -/
def renderLoop (rm : ModuleTemplate → Except String String) (md : String → String)
    (cfg : ProjectConfig) (ls : List Link) (dir : List String) :
    List OutputFile → List Analysed → Except String (List OutputFile)
  | files, [] => Except.ok files
  | files, m :: rest =>
    match rm (moduleTemplate md cfg ls m) with
    | Except.error e => Except.error e
    | Except.ok t =>
      renderLoop rm md cfg ls dir
        (files ++ [{ path := dir ++ m.name ++ ["index.html"], text := t }]) rest

/-- Translated from `doc.rs`: `generate_html`.  The external page-template
engine is passed in as `rp` (page template) and `rm` (module template), the
external markdown engine as `md`; the caller-supplied output-file vector is
the `files` argument and the result is the vector after the run, or the
first rendering error (modelled from the spec: a template-rendering failure
is fatal, aborts the run and yields no output files). -/
def generate_html (rp : PageTemplate → Except String String)
    (rm : ModuleTemplate → Except String String) (md : String → String)
    (cfg : ProjectConfig) (analysed : List Analysed) (files : List OutputFile)
    (dir : List String) : Except String (List OutputFile) :=
  let ls := modules_links analysed
  match rp (readmeTemplate cfg ls) with
  | Except.error e => Except.error e
  | Except.ok readmeText =>
    match renderLoop rm md cfg ls dir
        (files ++ [{ path := dir ++ ["index.html"], text := readmeText }])
        (srcModules analysed) with
    | Except.error e => Except.error e
    | Except.ok files2 =>
      Except.ok (files2 ++ [{ path := dir ++ ["index.css"], text := stylesheet }])

/-- First rendering error of a run: the README page's, else the first failing
module page's. -/
def firstRenderError (rp : PageTemplate → Except String String)
    (rm : ModuleTemplate → Except String String) (md : String → String)
    (cfg : ProjectConfig) (analysed : List Analysed) : Option String :=
  match rp (readmeTemplate cfg (modules_links analysed)) with
  | Except.error e => some e
  | Except.ok _ =>
    (srcModules analysed).findSome? fun m =>
      match rm (moduleTemplate md cfg (modules_links analysed) m) with
      | Except.error e => some e
      | Except.ok _ => none

/-- The flat (single-line) rendering of a non-empty parameter list: a
parenthesized comma-separated list. -/
def flatParams (args : List String) : String := "(" ++ sepBy ", " args ++ ")"

/-- Concatenation of a list of strings. -/
def concatAll : List String → String
  | [] => ""
  | s :: rest => s ++ concatAll rest

/-- The broken rendering of a non-empty parameter list: every parameter on
its own line, indented two columns, with a trailing comma, and the closing
parenthesis back at the opening column. -/
def brokenParams (args : List String) : String :=
  "(" ++ concatAll (args.map fun a => "\n  " ++ a ++ ",") ++ "\n)"

/-- The parameter-list group content built by `wrap_args` on text
arguments. -/
def wrapInner (args : List String) : Document :=
  Document.cons
    (Document.nest INDENT
      (Document.cons (Document.brk "(" "(")
        (intersperseDoc (Document.brk "," ", ") (args.map Document.text))))
    (Document.cons (Document.brk "," "") (Document.text ")"))

/-- The rendered parameter part of a type-alias signature: nothing for an
empty parameter list, the flat parenthesized list when it fits within the
width from the current column (9 for the keyword prefix plus the name), the
one-per-line broken list otherwise. -/
def aliasParams (name : String) (args : List String) : String :=
  if args = [] then ""
  else if 9 + name.length + (flatParams args).length ≤ 65 then flatParams args
  else brokenParams args

/-- The column reached just after the equals sign of a type-alias signature,
for each of the three parameter-part layouts. -/
def aliasEqCol (name : String) (args : List String) : Nat :=
  (if args = [] then 9 + name.length
   else if 9 + name.length + (flatParams args).length ≤ 65 then
     9 + name.length + (flatParams args).length
   else 1) + 2

/-- The name carried by a statement (empty for statement kinds without
one). -/
def stmtName : Statement → String
  | Statement.fn _ name _ => name
  | Statement.externalFn _ name _ => name
  | Statement.externalType _ name _ _ => name
  | Statement.customType _ name _ => name
  | Statement.typeAlias _ name _ _ _ => name
  | Statement.importStmt _ => ""

/-- The optional doc comment carried by a statement. -/
def stmtDoc : Statement → Option String
  | Statement.fn _ _ doc => doc
  | Statement.externalFn _ _ doc => doc
  | Statement.externalType _ _ doc _ => doc
  | Statement.customType _ _ doc => doc
  | Statement.typeAlias _ _ doc _ _ => doc
  | Statement.importStmt _ => none

/-- The statements the spec calls public function statements: an in-language
or external function declared public. -/
def isPublicFunctionStmt : Statement → Bool
  | Statement.fn p _ _ => p
  | Statement.externalFn p _ _ => p
  | _ => false

/-- The statements the spec calls public type statements: an external type,
custom type or type alias declared public. -/
def isPublicTypeStmt : Statement → Bool
  | Statement.externalType p _ _ _ => p
  | Statement.customType p _ _ => p
  | Statement.typeAlias p _ _ _ _ => p
  | _ => false

/-- The signature text `type_` attaches to a statement's rendered type
declaration. -/
def stmtTypeDefinition : Statement → String
  | Statement.externalType _ name _ args => external_type name args
  | Statement.typeAlias _ name _ args typ => type_alias name args typ
  | _ => ""

/-- The documentation html produced for a statement's doc comment. -/
def stmtDocHtml (md : String → String) (s : Statement) : String :=
  match stmtDoc s with
  | none => ""
  | some d => render_markdown md d

theorem concatAll_cons (s : String) (l : List String) :
    concatAll (s :: l) = s ++ concatAll l := rfl

theorem wrap_args_map_text (args : List String) :
    wrap_args (args.map Document.text) = Document.group (wrapInner args) := rfl

theorem sepBy_cons_cons (sep a b : String) (t : List String) :
    sepBy sep (a :: b :: t) = a ++ sep ++ sepBy sep (b :: t) := rfl

theorem flatWidth_inter (args : List String) (h : args ≠ []) :
    flatWidth (intersperseDoc (Document.brk "," ", ") (args.map Document.text))
      = (sepBy ", " args).length := by
  induction args with
  | nil => exact absurd rfl h
  | cons a rest ih =>
    cases rest with
    | nil => rfl
    | cons b t =>
      have hr := ih (by simp)
      simp only [List.map_cons] at hr
      simp only [List.map_cons, intersperseDoc, flatWidth, hr, sepBy_cons_cons,
        String.length_append]
      omega

theorem fmt_inter_flat (w : Int) (i : Nat) :
    ∀ (args : List String) (k : Nat), args ≠ [] →
      fmt w k i Mode.flat (intersperseDoc (Document.brk "," ", ") (args.map Document.text))
        = (sepBy ", " args, k + (sepBy ", " args).length) := by
  intro args
  induction args with
  | nil => intro k h; exact absurd rfl h
  | cons a rest ih =>
    intro k _
    cases rest with
    | nil => rfl
    | cons b t =>
      have hr := ih (k + a.length + (", " : String).length) (by simp)
      simp only [List.map_cons] at hr
      simp only [List.map_cons, intersperseDoc, fmt, hr, sepBy_cons_cons,
        String.length_append, String.append_assoc, Prod.mk.injEq]
      exact ⟨trivial, by omega⟩

theorem fmt_inter_broken (w : Int) :
    ∀ (args : List String) (k : Nat), args ≠ [] →
      (fmt w k 2 Mode.broken
          (intersperseDoc (Document.brk "," ", ") (args.map Document.text))).1
        = sepBy ",\n  " args := by
  intro args
  induction args with
  | nil => intro k h; exact absurd rfl h
  | cons a rest ih =>
    intro k _
    cases rest with
    | nil => rfl
    | cons b t =>
      have hr := ih 2 (by simp)
      simp only [List.map_cons] at hr
      have hsp2 : spaces 2 = "  " := rfl
      have esep : (",\n  " : String) = "," ++ "\n" ++ "  " := rfl
      simp only [List.map_cons, intersperseDoc, fmt, hr, sepBy_cons_cons, hsp2, esep,
        String.append_assoc]

theorem flatWidth_wrapInner (args : List String) (h : args ≠ []) :
    flatWidth (wrapInner args) = (flatParams args).length := by
  simp only [wrapInner, flatWidth, flatWidth_inter args h, flatParams,
    String.length_append]
  have h1 : ("(" : String).length = 1 := rfl
  have h2 : (")" : String).length = 1 := rfl
  have h3 : ("" : String).length = 0 := rfl
  omega

theorem fmt_wrapInner_flat (w : Int) (k i : Nat) (args : List String) (h : args ≠ []) :
    fmt w k i Mode.flat (wrapInner args) = (flatParams args, k + (flatParams args).length) := by
  have hS := fmt_inter_flat w (i + INDENT) args (k + ("(" : String).length) h
  simp only [wrapInner, fmt, hS, flatParams, String.length_append,
    String.empty_append, String.append_empty, Prod.mk.injEq]
  have h3 : ("" : String).length = 0 := rfl
  exact ⟨by simp [String.append_assoc], by omega⟩

theorem concatAll_sep (args : List String) (h : args ≠ []) :
    "\n  " ++ (sepBy ",\n  " args ++ ",\n")
      = concatAll (args.map fun a => "\n  " ++ a ++ ",") ++ "\n" := by
  induction args with
  | nil => exact absurd rfl h
  | cons a rest ih =>
    cases rest with
    | nil =>
      have e2 : (",\n" : String) = "," ++ "\n" := rfl
      simp only [List.map_cons, List.map_nil, concatAll, sepBy, String.append_empty, e2,
        String.append_assoc]
    | cons b t =>
      have hr := ih (by simp)
      simp only [String.append_assoc] at hr
      rw [sepBy_cons_cons, List.map_cons, concatAll_cons]
      simp only [String.append_assoc]
      rw [← hr]
      rw [show (",\n  " : String) ++ (sepBy ",\n  " (b :: t) ++ ",\n")
          = "," ++ ("\n  " ++ (sepBy ",\n  " (b :: t) ++ ",\n")) from by
        rw [show (",\n  " : String) = "," ++ "\n  " from rfl, String.append_assoc]]

theorem fmt_wrapInner_broken (w : Int) (k : Nat) (args : List String) (h : args ≠ []) :
    fmt w k 0 Mode.broken (wrapInner args) = (brokenParams args, 1) := by
  have hb := fmt_inter_broken w args 2 h
  have hcA := concatAll_sep args h
  have h2 := congrArg (fun s => s ++ ")") hcA
  have eA : ("\n  " : String) = "\n" ++ "  " := rfl
  have eB : (",\n" : String) = "," ++ "\n" := rfl
  have eC : ("\n)" : String) = "\n" ++ ")" := rfl
  have h0 : (0 : Nat) + INDENT = 2 := rfl
  have hsp0 : spaces 0 = "" := rfl
  have hsp2 : spaces 2 = "  " := rfl
  have hrp : (")" : String).length = 1 := rfl
  simp only [eA, eB, String.append_assoc] at h2
  simp only [wrapInner, fmt, h0, hsp0, hsp2, hb, brokenParams, eA, eB, eC,
    Prod.mk.injEq, String.empty_append, String.append_empty, String.append_assoc]
  exact ⟨by rw [h2], by omega⟩

theorem fmt_group_wrapInner (k : Nat) (args : List String) (h : args ≠ []) :
    fmt 65 k 0 Mode.broken (Document.group (wrapInner args)) =
      if k + (flatParams args).length ≤ 65 then
        (flatParams args, k + (flatParams args).length)
      else (brokenParams args, 1) := by
  rw [show fmt 65 k 0 Mode.broken (Document.group (wrapInner args))
      = if (flatWidth (wrapInner args) : Int) ≤ 65 - (k : Int) then
          fmt 65 k 0 Mode.flat (wrapInner args)
        else fmt 65 k 0 Mode.broken (wrapInner args) from rfl]
  rw [flatWidth_wrapInner _ h]
  by_cases hfit : k + (flatParams args).length ≤ 65
  · rw [if_pos hfit, if_pos (by omega), fmt_wrapInner_flat _ _ _ _ h]
  · rw [if_neg hfit, if_neg (by omega), fmt_wrapInner_broken _ _ _ h]

theorem external_type_eq (name : String) (args : List String) :
    external_type name args =
      if args = [] then "pub external type " ++ name
      else if 18 + name.length + (flatParams args).length ≤ 65 then
        "pub external type " ++ name ++ flatParams args
      else "pub external type " ++ name ++ brokenParams args := by
  cases args with
  | nil => simp [external_type, format, to_doc, fmt]
  | cons a t =>
    have hne : (a :: t : List String) ≠ [] := by simp
    have hL1 : ("pub external type " : String).length = 18 := rfl
    have e1 : external_type name (a :: t)
        = "pub external type " ++ (name ++
            (fmt 65 (0 + ("pub external type " : String).length + name.length) 0
              Mode.broken (Document.group (wrapInner (a :: t)))).1) := rfl
    rw [e1, hL1, fmt_group_wrapInner _ _ hne, if_neg hne]
    by_cases hfit : 18 + name.length + (flatParams (a :: t)).length ≤ 65
    · rw [if_pos hfit, if_pos (by omega)]
      simp [String.append_assoc]
    · rw [if_neg hfit, if_neg (by omega)]
      simp [String.append_assoc]

theorem fmt_tail_alias (k : Nat) (typ : TypeAst) :
    fmt 65 k (0 + INDENT) Mode.broken (Document.group (Document.cons line (type_ast typ))) =
      if k + (1 + (typeAstText typ).length) ≤ 65 then
        (" " ++ typeAstText typ, k + 1 + (typeAstText typ).length)
      else ("\n  " ++ typeAstText typ, 2 + (typeAstText typ).length) := by
  rw [show fmt 65 k (0 + INDENT) Mode.broken
        (Document.group (Document.cons line (type_ast typ)))
      = if (flatWidth (Document.cons line (type_ast typ)) : Int) ≤ 65 - (k : Int) then
          fmt 65 k (0 + INDENT) Mode.flat (Document.cons line (type_ast typ))
        else fmt 65 k (0 + INDENT) Mode.broken (Document.cons line (type_ast typ))
      from rfl]
  rw [show flatWidth (Document.cons line (type_ast typ)) = 1 + (typeAstText typ).length
      from rfl]
  by_cases hfit : k + (1 + (typeAstText typ).length) ≤ 65
  · rw [if_pos hfit, if_pos (by omega)]
    rfl
  · rw [if_neg hfit, if_neg (by omega)]
    rfl

/-- C5: a public type alias renders as the literal prefix, the name, the
parameter part only when the parameter list is non-empty, then the equals
sign, then either a single space before the aliased type when the flat form
fits within width 65 from the column after the equals sign, or a newline
with the aliased type indented 2 columns (one indent unit) beyond the
keyword line otherwise. -/
theorem type_alias_rendering (name : String) (args : List String) (typ : TypeAst) :
    type_alias name args typ =
      "pub type " ++ name ++ aliasParams name args ++ " =" ++
        (if aliasEqCol name args + (1 + (typeAstText typ).length) ≤ 65 then
          " " ++ typeAstText typ
        else "\n  " ++ typeAstText typ) := by
  have hE : (" =" : String).length = 2 := rfl
  have hL2 : ("pub type " : String).length = 9 := rfl
  cases args with
  | nil =>
    have hP : aliasParams name [] = "" := by simp [aliasParams]
    have hC : aliasEqCol name [] = 9 + name.length + 2 := by simp [aliasEqCol]
    have e1 : type_alias name [] typ
        = "pub type " ++ (name ++ ("" ++ (" =" ++
            (fmt 65 (0 + ("pub type " : String).length + name.length + (" =" : String).length)
              (0 + INDENT) Mode.broken
              (Document.group (Document.cons line (type_ast typ)))).1))) := rfl
    rw [e1, hL2, hE, fmt_tail_alias _ typ, hP, hC]
    by_cases hfit : 9 + name.length + 2 + (1 + (typeAstText typ).length) ≤ 65
    · rw [if_pos hfit, if_pos (by omega)]
      simp [String.append_assoc]
    · rw [if_neg hfit, if_neg (by omega)]
      simp [String.append_assoc]
  | cons a t =>
    have hne : (a :: t : List String) ≠ [] := by simp
    have e1 : type_alias name (a :: t) typ
        = "pub type " ++ (name ++
            ((fmt 65 (0 + ("pub type " : String).length + name.length) 0 Mode.broken
                (Document.group (wrapInner (a :: t)))).1 ++
              (" =" ++
                (fmt 65
                  ((fmt 65 (0 + ("pub type " : String).length + name.length) 0 Mode.broken
                      (Document.group (wrapInner (a :: t)))).2 + (" =" : String).length)
                  (0 + INDENT) Mode.broken
                  (Document.group (Document.cons line (type_ast typ)))).1))) := rfl
    rw [e1, hL2, hE, fmt_group_wrapInner _ _ hne]
    by_cases hfit1 : 9 + name.length + (flatParams (a :: t)).length ≤ 65
    · have hP : aliasParams name (a :: t) = flatParams (a :: t) := by
        simp [aliasParams, hfit1]
      have hC : aliasEqCol name (a :: t)
          = 9 + name.length + (flatParams (a :: t)).length + 2 := by
        simp [aliasEqCol, hfit1]
      rw [if_pos (by omega), hP, hC]
      rw [fmt_tail_alias _ typ]
      by_cases hfit2 : 9 + name.length + (flatParams (a :: t)).length + 2
          + (1 + (typeAstText typ).length) ≤ 65
      · rw [if_pos hfit2, if_pos (by omega)]
        simp [String.append_assoc]
      · rw [if_neg hfit2, if_neg (by omega)]
        simp [String.append_assoc]
    · have hP : aliasParams name (a :: t) = brokenParams (a :: t) := by
        simp [aliasParams, hfit1]
      have hC : aliasEqCol name (a :: t) = 3 := by
        simp [aliasEqCol, hfit1]
      rw [if_neg (by omega), hP, hC]
      rw [fmt_tail_alias _ typ]
      by_cases hfit2 : 3 + (1 + (typeAstText typ).length) ≤ 65
      · rw [if_pos hfit2, if_pos (by omega)]
        simp [String.append_assoc]
      · rw [if_neg hfit2, if_neg (by omega)]
        simp [String.append_assoc]

theorem function_char (md : String → String) (s : Statement) :
    function md s =
      if isPublicFunctionStmt s then
        some { name := stmtName s, signature := "", documentation := stmtDocHtml md s }
      else none := by
  cases s with
  | fn p name doc => cases p <;> cases doc <;> rfl
  | externalFn p name doc => cases p <;> cases doc <;> rfl
  | externalType p name doc args => rfl
  | customType p name doc => rfl
  | typeAlias p name doc args typ => rfl
  | importStmt m => rfl

theorem type_char (md : String → String) (s : Statement) :
    type_ md s =
      if isPublicTypeStmt s then
        some { name := stmtName s, definition := stmtTypeDefinition s,
               documentation := stmtDocHtml md s }
      else none := by
  cases s with
  | fn p name doc => rfl
  | externalFn p name doc => rfl
  | externalType p name doc args => cases p <;> cases doc <;> rfl
  | customType p name doc => cases p <;> cases doc <;> rfl
  | typeAlias p name doc args typ => cases p <;> cases doc <;> rfl
  | importStmt m => rfl

/-- C2: over any statement sequence, the classifiers emit a rendered
declaration exactly for the public function and public external-function
statements (the functions list) and for the public external-type,
custom-type and type-alias statements (the types list), nothing for
non-public statements or other statement kinds, and the emitted
declarations keep the statements' original relative order. -/
theorem extractor_visibility_filter (md : String → String) (stmts : List Statement) :
    ((stmts.filterMap (function md)).map (fun f => f.name)
        = (stmts.filter (fun s => isPublicFunctionStmt s)).map stmtName)
    ∧ ((stmts.filterMap (type_ md)).map (fun t => t.name)
        = (stmts.filter (fun s => isPublicTypeStmt s)).map stmtName)
    ∧ ∀ s : Statement, (function md s).isSome = isPublicFunctionStmt s
        ∧ (type_ md s).isSome = isPublicTypeStmt s := by
  refine ⟨?_, ?_, ?_⟩
  · induction stmts with
    | nil => rfl
    | cons s rest ih =>
      cases hp : isPublicFunctionStmt s <;>
        simp [List.filterMap_cons, List.filter_cons, function_char, hp, ih]
  · induction stmts with
    | nil => rfl
    | cons s rest ih =>
      cases hp : isPublicTypeStmt s <;>
        simp [List.filterMap_cons, List.filter_cons, type_char, hp, ih]
  · intro s
    constructor
    · rw [function_char]
      cases hp : isPublicFunctionStmt s <;> simp [hp]
    · rw [type_char]
      cases hp : isPublicTypeStmt s <;> simp [hp]

/-- C7: whenever a public declaration's optional doc comment is absent, the
rendered documentation html is the empty string, for both the function and
the type classifier. -/
theorem missing_doc_renders_empty (md : String → String) (s : Statement) :
    (∀ f : Function, function md s = some f → stmtDoc s = none → f.documentation = "")
    ∧ (∀ t : Type', type_ md s = some t → stmtDoc s = none → t.documentation = "") := by
  constructor
  · intro f hf hd
    rw [function_char] at hf
    by_cases hp : isPublicFunctionStmt s
    · rw [if_pos hp] at hf
      have := Option.some.inj hf
      subst this
      simp [stmtDocHtml, hd]
    · rw [if_neg hp] at hf
      exact absurd hf (by simp)
  · intro t ht hd
    rw [type_char] at ht
    by_cases hp : isPublicTypeStmt s
    · rw [if_pos hp] at ht
      have := Option.some.inj ht
      subst this
      simp [stmtDocHtml, hd]
    · rw [if_neg hp] at ht
      exact absurd ht (by simp)

theorem missing_doc_renders_empty_witness :
    Function.documentation { name := "f", signature := "", documentation := "" } = "" :=
  (missing_doc_renders_empty (fun s => s) (Statement.fn true "f" none)).1
    { name := "f", signature := "", documentation := "" } rfl rfl

/-- C10: no typed statement is classified both as a function and as a type:
for every statement at least one of the two classifiers yields nothing, so
no declaration can appear in both lists of a module page. -/
theorem classifiers_disjoint (md : String → String) (s : Statement) :
    function md s = none ∨ type_ md s = none := by
  cases s with
  | fn p name doc => exact Or.inr rfl
  | externalFn p name doc => exact Or.inr rfl
  | externalType p name doc args => exact Or.inl rfl
  | customType p name doc => exact Or.inl rfl
  | typeAlias p name doc args typ => exact Or.inl rfl
  | importStmt m => exact Or.inl rfl

/-- C4: a public external type's rendered signature is the literal
`pub external type ` followed by the name, with a parenthesized
comma-separated type-parameter list appended only when the parameter list is
non-empty; with no parameters the output is exactly the prefix plus the
name. -/
theorem external_type_rendering (name : String) (args : List String) :
    (args = [] → external_type name args = "pub external type " ++ name)
    ∧ (args ≠ [] → external_type name args
        = "pub external type " ++ name
            ++ (if 18 + name.length + (flatParams args).length ≤ 65 then flatParams args
                else brokenParams args)) := by
  constructor
  · intro h
    subst h
    rw [external_type_eq]
    rfl
  · intro h
    rw [external_type_eq, if_neg h]
    by_cases hfit : 18 + name.length + (flatParams args).length ≤ 65
    · rw [if_pos hfit, if_pos hfit]
    · rw [if_neg hfit, if_neg hfit]

theorem external_type_rendering_witness :
    external_type "X" [] = "pub external type " ++ "X" :=
  (external_type_rendering "X" []).1 rfl

/-- C3: the type-parameter list of a rendered external-type signature is laid
out all-or-nothing at width 65: when the flat parenthesized comma-separated
form fits within column 65 measured from the current column (18 for the
keyword prefix plus the name's length) the whole list is inline, and
otherwise every parameter sits on its own line indented by the 2-column
indent unit beyond the group's start, with no mixed layout possible. -/
theorem external_type_params_all_or_nothing (name : String) (args : List String)
    (h : args ≠ []) :
    (18 + name.length + (flatParams args).length ≤ 65 →
      external_type name args
        = "pub external type " ++ name ++ ("(" ++ sepBy ", " args ++ ")"))
    ∧ (¬ 18 + name.length + (flatParams args).length ≤ 65 →
      external_type name args
        = "pub external type " ++ name
            ++ ("(" ++ concatAll (args.map fun a => "\n  " ++ a ++ ",") ++ "\n)")) := by
  constructor
  · intro hfit
    rw [external_type_eq, if_neg h, if_pos hfit]
    rfl
  · intro hfit
    rw [external_type_eq, if_neg h, if_neg hfit]
    rfl

theorem external_type_params_all_or_nothing_witness :
    external_type "Name" ["a"]
      = "pub external type " ++ "Name" ++ ("(" ++ sepBy ", " ["a"] ++ ")") :=
  (external_type_params_all_or_nothing "Name" ["a"] (by decide)).1 (by decide)

/-- C6: a documented module page's unnest prefix is one dot-dot token per
name segment joined by slashes, and the root index page's unnest is the
literal current-directory token. -/
theorem unnest_depth (md : String → String) (cfg : ProjectConfig) (ls : List Link)
    (m : Analysed) (h : m.name ≠ []) :
    (moduleTemplate md cfg ls m).unnest = sepBy "/" (List.replicate m.name.length "..")
    ∧ (readmeTemplate cfg ls).unnest = "." := by
  constructor
  · show unnest m.name = _
    rw [unnest, List.map_const']
  · rfl

theorem renderLoop_error_of_first (rm : ModuleTemplate → Except String String)
    (md : String → String) (cfg : ProjectConfig) (ls : List Link) (dir : List String) :
    ∀ (ms : List Analysed) (files : List OutputFile) (e : String),
      ms.findSome? (fun m =>
          match rm (moduleTemplate md cfg ls m) with
          | Except.error e2 => some e2
          | Except.ok _ => none) = some e →
      renderLoop rm md cfg ls dir files ms = Except.error e := by
  intro ms
  induction ms with
  | nil => intro files e h; simp at h
  | cons m rest ih =>
    intro files e h
    cases hrm : rm (moduleTemplate md cfg ls m) with
    | error e2 =>
      simp [List.findSome?_cons, hrm] at h
      simp [renderLoop, hrm, h]
    | ok t =>
      simp [List.findSome?_cons, hrm] at h
      simp only [renderLoop, hrm]
      exact ih _ _ h

/-- C1: if rendering any page through the external template engine fails,
`generate_html` yields the first failing page's underlying error and no
output-file list at all, so the caller-supplied output-file list stays
exactly as it was before the call and no partially emitted pages exist. -/
theorem generate_html_fatal_on_render_error (rp : PageTemplate → Except String String)
    (rm : ModuleTemplate → Except String String) (md : String → String)
    (cfg : ProjectConfig) (analysed : List Analysed) (files : List OutputFile)
    (dir : List String) (e : String)
    (h : firstRenderError rp rm md cfg analysed = some e) :
    generate_html rp rm md cfg analysed files dir = Except.error e := by
  cases hrp : rp (readmeTemplate cfg (modules_links analysed)) with
  | error e2 =>
    simp only [firstRenderError, hrp] at h
    simp only [generate_html, hrp]
    rw [Option.some.inj h]
  | ok t =>
    simp only [firstRenderError, hrp] at h
    simp only [generate_html, hrp]
    rw [renderLoop_error_of_first rm md cfg (modules_links analysed) dir _ _ _ h]

theorem generate_html_fatal_on_render_error_witness :
    generate_html (fun _ => Except.error "boom") (fun _ => Except.ok "") (fun s => s)
      { name := "p" } [] [] [] = Except.error "boom" :=
  generate_html_fatal_on_render_error (fun _ => Except.error "boom") (fun _ => Except.ok "")
    (fun s => s) { name := "p" } [] [] [] "boom" rfl

theorem renderLoop_ok_struct (rm : ModuleTemplate → Except String String)
    (md : String → String) (cfg : ProjectConfig) (ls : List Link) (dir : List String) :
    ∀ (ms : List Analysed) (files fs : List OutputFile),
      renderLoop rm md cfg ls dir files ms = Except.ok fs →
      ∃ rest : List OutputFile, fs = files ++ rest ∧
        rest.map (fun f => f.path) = ms.map (fun m => dir ++ m.name ++ ["index.html"]) := by
  intro ms
  induction ms with
  | nil =>
    intro files fs h
    simp only [renderLoop] at h
    exact ⟨[], by simp [← Except.ok.inj h], by simp⟩
  | cons m rest ih =>
    intro files fs h
    cases hrm : rm (moduleTemplate md cfg ls m) with
    | error e =>
      simp [renderLoop, hrm] at h
    | ok t =>
      simp only [renderLoop, hrm] at h
      obtain ⟨r2, hfs, hmap⟩ := ih _ _ h
      refine ⟨{ path := dir ++ m.name ++ ["index.html"], text := t } :: r2, ?_, ?_⟩
      · rw [hfs, List.append_assoc]
        rfl
      · simp [hmap]

theorem generate_html_ok_struct (rp : PageTemplate → Except String String)
    (rm : ModuleTemplate → Except String String) (md : String → String)
    (cfg : ProjectConfig) (analysed : List Analysed) (files : List OutputFile)
    (dir : List String) (fs : List OutputFile)
    (h : generate_html rp rm md cfg analysed files dir = Except.ok fs) :
    ∃ (rt : String) (rest : List OutputFile),
      fs = files ++ ({ path := dir ++ ["index.html"], text := rt } :: rest)
          ++ [{ path := dir ++ ["index.css"], text := stylesheet }]
      ∧ rest.map (fun f => f.path)
        = (srcModules analysed).map (fun m => dir ++ m.name ++ ["index.html"]) := by
  cases hrp : rp (readmeTemplate cfg (modules_links analysed)) with
  | error e =>
    simp only [generate_html, hrp] at h
    exact absurd h (by simp)
  | ok rt =>
    simp only [generate_html, hrp] at h
    cases hloop : renderLoop rm md cfg (modules_links analysed) dir
        (files ++ [{ path := dir ++ ["index.html"], text := rt }]) (srcModules analysed) with
    | error e =>
      rw [hloop] at h
      exact absurd h (by simp)
    | ok files2 =>
      rw [hloop] at h
      obtain ⟨rest, hf2, hmap⟩ :=
        renderLoop_ok_struct rm md cfg (modules_links analysed) dir _ _ _ hloop
      refine ⟨rt, rest, ?_, hmap⟩
      have h2 : files2 ++ [({ path := dir ++ ["index.css"], text := stylesheet } : OutputFile)]
          = fs := Except.ok.inj h
      rw [← h2, hf2]
      simp [List.append_assoc]

/-- C9: on a successful run `generate_html` only appends to the
caller-supplied output-file vector: the vector's prior elements stay in
place unchanged, and the new elements follow in the fixed order root index
page, one page per from-source module in the supplied order, then the
stylesheet last. -/
theorem generate_html_appends_in_order (rp : PageTemplate → Except String String)
    (rm : ModuleTemplate → Except String String) (md : String → String)
    (cfg : ProjectConfig) (analysed : List Analysed) (files : List OutputFile)
    (dir : List String) (fs : List OutputFile)
    (h : generate_html rp rm md cfg analysed files dir = Except.ok fs) :
    fs.take files.length = files
    ∧ (fs.drop files.length).map (fun f => f.path)
      = (dir ++ ["index.html"])
          :: ((srcModules analysed).map fun m => dir ++ m.name ++ ["index.html"])
          ++ [dir ++ ["index.css"]] := by
  obtain ⟨rt, rest, hfs, hmap⟩ :=
    generate_html_ok_struct rp rm md cfg analysed files dir fs h
  subst hfs
  rw [List.append_assoc]
  constructor
  · exact List.take_left files _
  · rw [List.drop_left]
    simp [hmap]

theorem generate_html_appends_in_order_witness :
    ([{ path := ["x"], text := "t" }, { path := ["index.html"], text := "" },
      { path := ["a", "index.html"], text := "" },
      { path := ["index.css"], text := stylesheet }] : List OutputFile).take 1
      = [{ path := ["x"], text := "t" }]
    ∧ (([{ path := ["x"], text := "t" }, { path := ["index.html"], text := "" },
        { path := ["a", "index.html"], text := "" },
        { path := ["index.css"], text := stylesheet }] : List OutputFile).drop 1).map
          (fun f => f.path)
      = [["index.html"], ["a", "index.html"], ["index.css"]] :=
  generate_html_appends_in_order (fun _ => Except.ok "") (fun _ => Except.ok "")
    (fun s => s) { name := "p" }
    [{ name := ["a"], origin := ModuleOrigin.src, ast := { statements := [] } }]
    [{ path := ["x"], text := "t" }] []
    [{ path := ["x"], text := "t" }, { path := ["index.html"], text := "" },
     { path := ["a", "index.html"], text := "" },
     { path := ["index.css"], text := stylesheet }]
    rfl

/-- C8: for modules with pairwise-distinct non-empty names, the paths of the
emitted output files (root page, one page per from-source module, and the
stylesheet) are pairwise distinct. -/
theorem output_paths_distinct (rp : PageTemplate → Except String String)
    (rm : ModuleTemplate → Except String String) (md : String → String)
    (cfg : ProjectConfig) (analysed : List Analysed) (dir : List String)
    (fs : List OutputFile)
    (hnames : (analysed.map (fun m => m.name)).Pairwise (· ≠ ·))
    (hne : ∀ m ∈ analysed, m.name ≠ [])
    (h : generate_html rp rm md cfg analysed [] dir = Except.ok fs) :
    (fs.map (fun f => f.path)).Pairwise (· ≠ ·) := by
  obtain ⟨rt, rest, hfs, hmap⟩ :=
    generate_html_ok_struct rp rm md cfg analysed [] dir fs h
  subst hfs
  have hsub : List.Sublist (srcModules analysed) analysed := List.filter_sublist analysed
  have hsrcnames : ((srcModules analysed).map (fun m => m.name)).Pairwise (· ≠ ·) :=
    List.Pairwise.sublist (hsub.map _) hnames
  have hsrcne : ∀ m ∈ srcModules analysed, m.name ≠ [] :=
    fun m hm => hne m (List.mem_of_mem_filter hm)
  simp only [List.nil_append, List.map_append, List.map_cons, List.map_nil,
    List.cons_append, List.nil_append]
  rw [hmap]
  rw [List.pairwise_cons]
  constructor
  · intro b hb
    rcases List.mem_append.mp hb with hbp | hbc
    · obtain ⟨m, hm, rfl⟩ := List.mem_map.mp hbp
      intro heq
      have hlen := congrArg List.length heq
      simp only [List.length_append, List.length_cons, List.length_nil] at hlen
      have hm1 : m.name ≠ [] := hsrcne m hm
      have hm2 : m.name.length ≠ 0 := by simpa [List.length_eq_zero] using hm1
      omega
    · have hbc' : b = dir ++ ["index.css"] := by simpa using hbc
      subst hbc'
      intro heq
      have hcancel := List.append_cancel_left heq
      exact absurd hcancel (by decide)
  · rw [List.pairwise_append]
    refine ⟨?_, List.pairwise_singleton _ _, ?_⟩
    · rw [List.pairwise_map]
      refine (List.pairwise_map.mp hsrcnames).imp ?_
      intro a b hab heq
      exact hab (List.append_cancel_left (List.append_cancel_right heq))
    · intro x hxp b hbc
      obtain ⟨m, hm, rfl⟩ := List.mem_map.mp hxp
      have hbc' : b = dir ++ ["index.css"] := by simpa using hbc
      subst hbc'
      intro heq
      have hlen := congrArg List.length heq
      simp only [List.length_append, List.length_cons, List.length_nil] at hlen
      have hm1 : m.name ≠ [] := hsrcne m hm
      have hm2 : m.name.length ≠ 0 := by simpa [List.length_eq_zero] using hm1
      omega

theorem output_paths_distinct_witness :
    (([{ path := ["index.html"], text := "" }, { path := ["a", "index.html"], text := "" },
       { path := ["b", "index.html"], text := "" },
       { path := ["index.css"], text := stylesheet }] : List OutputFile).map
        (fun f => f.path)).Pairwise (· ≠ ·) :=
  output_paths_distinct (fun _ => Except.ok "") (fun _ => Except.ok "") (fun s => s)
    { name := "p" }
    [{ name := ["a"], origin := ModuleOrigin.src, ast := { statements := [] } },
     { name := ["b"], origin := ModuleOrigin.src, ast := { statements := [] } }]
    [] [{ path := ["index.html"], text := "" }, { path := ["a", "index.html"], text := "" },
        { path := ["b", "index.html"], text := "" },
        { path := ["index.css"], text := stylesheet }]
    (by decide) (by decide) rfl

theorem unnest_depth_witness :
    (moduleTemplate (fun s => s) { name := "p" } []
        { name := ["a", "b", "c"], origin := ModuleOrigin.src,
          ast := { statements := [] } }).unnest = "../../.." := by
  have h := (unnest_depth (fun s => s) { name := "p" } []
      { name := ["a", "b", "c"], origin := ModuleOrigin.src, ast := { statements := [] } }
      (by decide)).1
  rw [h]
  decide

end GleamDoc
